import Mathlib

/-!
Shallow embedding of the Pequod whale-alert system: the frontend alert data
model, explorer-link helpers, alert-feed rendering, client-side alert list
maintenance, and (modelled from the spec where the backend source is absent)
the threshold filter, dedup store, dedup key, and history buffer.
-/

/-- Alert kinds, from the frontend `AlertType` union
(`"transfer" | "mint" | "burn" | "dex_trade" | "bridge"`). -/
inductive AlertType where
  | transfer
  | mint
  | burn
  | dex_trade
  | bridge
deriving DecidableEq, Repr

/-- The string literal each `AlertType` member stands for in the source union. -/
def AlertType.toStr : AlertType → String
  | .transfer => "transfer"
  | .mint => "mint"
  | .burn => "burn"
  | .dex_trade => "dex_trade"
  | .bridge => "bridge"

/-- The set of alert-type strings admitted by the frontend `AlertType` union. -/
def validAlertTypes : List String :=
  [AlertType.transfer.toStr, AlertType.mint.toStr, AlertType.burn.toStr,
   AlertType.dex_trade.toStr, AlertType.bridge.toStr]

/-- The frontend `WhaleAlert` interface (geo fields omitted: presentation only).
Numeric amounts are embedded as rationals, nullable fields as `Option`. -/
structure WhaleAlert where
  tx_hash : String
  chain : String
  block_timestamp : String
  alert_type : AlertType
  from_address : Option String
  to_address : Option String
  from_label : Option String
  to_label : Option String
  asset_symbol : Option String
  amount : Option Rat
  usd_value : Rat
  protocol : Option String
  source_chain : Option String
  destination_chain : Option String
  asset_bought_symbol : Option String
  asset_sold_symbol : Option String
  amount_bought : Option Rat
  amount_sold : Option Rat
deriving DecidableEq, Repr

/-- `EXPLORER_BASE` table from `lib/explorer.ts`. -/
def EXPLORER_BASE : List (String × String) :=
  [("ethereum", "https://etherscan.io/tx/"),
   ("bitcoin", "https://mempool.space/tx/"),
   ("solana", "https://solscan.io/tx/"),
   ("polygon", "https://polygonscan.com/tx/"),
   ("arbitrum", "https://arbiscan.io/tx/"),
   ("optimism", "https://optimistic.etherscan.io/tx/"),
   ("base", "https://basescan.org/tx/"),
   ("avalanche", "https://snowtrace.io/tx/"),
   ("bsc", "https://bscscan.com/tx/"),
   ("linea", "https://lineascan.build/tx/"),
   ("scroll", "https://scrollscan.com/tx/"),
   ("zksync", "https://explorer.zksync.io/tx/"),
   ("blast", "https://blastscan.io/tx/")]

/-- `EXPLORER_NAMES` table from `lib/explorer.ts`. -/
def EXPLORER_NAMES : List (String × String) :=
  [("ethereum", "Etherscan"),
   ("bitcoin", "Mempool"),
   ("solana", "Solscan"),
   ("polygon", "Polygonscan"),
   ("arbitrum", "Arbiscan"),
   ("optimism", "OP Etherscan"),
   ("base", "Basescan"),
   ("avalanche", "Snowtrace"),
   ("bsc", "BscScan"),
   ("linea", "LineaScan"),
   ("scroll", "ScrollScan"),
   ("zksync", "zkSync Explorer"),
   ("blast", "BlastScan")]

/-- JavaScript `String.prototype.toLowerCase`, embedded as a character-wise
lower-casing (kernel-reducible, unlike `String.toLower`). -/
def toLowerStr (s : String) : String :=
  ⟨s.data.map Char.toLower⟩

/-- `getExplorerTxUrl` from `lib/explorer.ts`: looks up the lower-cased chain
in `EXPLORER_BASE`; `null` when absent, otherwise base URL ++ tx hash. -/
def getExplorerTxUrl (chain txHash : String) : Option String :=
  match EXPLORER_BASE.lookup (toLowerStr chain) with
  | none => none
  | some base => some (base ++ txHash)

/-- `getExplorerName` from `lib/explorer.ts`: name lookup with an
"Explorer" fallback. -/
def getExplorerName (chain : String) : String :=
  (EXPLORER_NAMES.lookup (toLowerStr chain)).getD "Explorer"

/-- What the DetailPanel tx-link block renders: either an anchor (url plus
shortened hash text) or the raw hash as plain text. -/
inductive TxLinkView where
  | link (url : String) (text : String)
  | raw (txHash : String)
deriving DecidableEq, Repr

/-- The DetailPanel tx-link IIFE: renders an anchor when `getExplorerTxUrl`
returns a url, otherwise falls back to the raw hash. -/
def detailTxLink (w : WhaleAlert) : TxLinkView :=
  match getExplorerTxUrl w.chain w.tx_hash with
  | some url => .link url (w.tx_hash.take 10 ++ "..." ++ w.tx_hash.takeRight 4 ++ " ↗")
  | none => .raw w.tx_hash

/-- A `List.lookup` on a string association list is `none` iff the key matches
no entry. -/
theorem lookup_eq_none_iff (k : String) (l : List (String × String)) :
    l.lookup k = none ↔ ∀ p ∈ l, p.1 ≠ k := by
  induction l with
  | nil => simp [List.lookup]
  | cons p t ih =>
    obtain ⟨a, b⟩ := p
    by_cases h : k = a
    · subst h
      simp [List.lookup]
    · have hb : (k == a) = false := beq_false_of_ne h
      simp only [List.lookup, hb, List.mem_cons, forall_eq_or_imp]
      constructor
      · intro hl
        exact ⟨fun he => h he.symm, ih.mp hl⟩
      · intro hl
        exact ih.mpr hl.2

/-- A `List.lookup` on a string association list is `none` iff the key is not
among the mapped-out keys. -/
theorem lookup_none_iff_not_mem (k : String) (l : List (String × String)) :
    l.lookup k = none ↔ k ∉ l.map Prod.fst := by
  rw [lookup_eq_none_iff]
  constructor
  · intro h hmem
    obtain ⟨p, hp, hpk⟩ := List.mem_map.mp hmem
    exact h p hp hpk
  · intro h p hp hpk
    exact h (List.mem_map.mpr ⟨p, hp, hpk⟩)

/-- C10: `getExplorerTxUrl(chain, txHash)` returns null exactly when the
lower-cased chain is not one of the 13 chains in the explorer table, and
otherwise returns the chain's base URL concatenated with `txHash`; the
DetailPanel caller renders the raw hash when the url is null and the link
otherwise, and `getExplorerName` falls back to "Explorer" for unknown
chains. -/
theorem explorer_url_spec :
    (∀ chain txHash : String,
      (getExplorerTxUrl chain txHash = none ↔ toLowerStr chain ∉ EXPLORER_BASE.map Prod.fst))
  ∧ (∀ chain txHash base : String, EXPLORER_BASE.lookup (toLowerStr chain) = some base →
      getExplorerTxUrl chain txHash = some (base ++ txHash))
  ∧ (∀ chain : String, toLowerStr chain ∉ EXPLORER_NAMES.map Prod.fst →
      getExplorerName chain = "Explorer")
  ∧ (EXPLORER_BASE.map Prod.fst).length = 13
  ∧ (∀ w : WhaleAlert, getExplorerTxUrl w.chain w.tx_hash = none →
      detailTxLink w = TxLinkView.raw w.tx_hash)
  ∧ (∀ w : WhaleAlert, ∀ url : String, getExplorerTxUrl w.chain w.tx_hash = some url →
      detailTxLink w = TxLinkView.link url
        (w.tx_hash.take 10 ++ "..." ++ w.tx_hash.takeRight 4 ++ " ↗")) := by
  refine ⟨?_, ?_, ?_, rfl, ?_, ?_⟩
  · intro chain txHash
    rw [← lookup_none_iff_not_mem]
    cases h : EXPLORER_BASE.lookup (toLowerStr chain) <;> simp [getExplorerTxUrl, h]
  · intro chain txHash base h
    simp [getExplorerTxUrl, h]
  · intro chain h
    have hn := (lookup_none_iff_not_mem (toLowerStr chain) EXPLORER_NAMES).mpr h
    simp [getExplorerName, hn]
  · intro w h
    simp [detailTxLink, h]
  · intro w url h
    simp [detailTxLink, h]

/-- Witness for C10: a known chain (case-insensitively) yields the Etherscan
link, an unknown chain yields null and the "Explorer" fallback name. -/
theorem explorer_url_spec_witness :
    getExplorerTxUrl "Ethereum" "0xabc" = some "https://etherscan.io/tx/0xabc"
  ∧ getExplorerTxUrl "dogecoin" "0xdef" = none
  ∧ getExplorerName "dogecoin" = "Explorer" := by
  refine ⟨?_, ?_, ?_⟩
  · have h := explorer_url_spec.2.1 "Ethereum" "0xabc" "https://etherscan.io/tx/" (by decide)
    simpa using h
  · exact (explorer_url_spec.1 "dogecoin" "0xdef").mpr (by decide)
  · exact explorer_url_spec.2.2.1 "dogecoin" (by decide)

/-- C7 counterexample: the frontend alert-kind union contains the literal
"dex_trade", not "swap"; so the kinds are not the claimed five names. -/
theorem alert_kinds_counterexample :
    "swap" ∉ validAlertTypes ∧ "dex_trade" ∈ validAlertTypes ∧
    validAlertTypes ≠ ["transfer", "mint", "burn", "swap", "bridge"] := by
  decide

/-- C7 (amended): every alert kind is one of exactly the five enum values
transfer, mint, burn, dex_trade, bridge (the swap kind is named "dex_trade"),
the five names are pairwise distinct, and kind-specific extension fields exist
for dex_trade (sold/bought symbol+amount pair) and bridge (source chain,
destination chain, protocol name). -/
theorem alert_kinds_spec :
    validAlertTypes = ["transfer", "mint", "burn", "dex_trade", "bridge"]
  ∧ (∀ t : AlertType, t.toStr ∈ validAlertTypes)
  ∧ validAlertTypes.Nodup
  ∧ (∀ ss bs : Option String, ∀ sa ba : Option Rat, ∃ a : WhaleAlert,
      a.alert_type = AlertType.dex_trade ∧ a.asset_sold_symbol = ss ∧
      a.asset_bought_symbol = bs ∧ a.amount_sold = sa ∧ a.amount_bought = ba)
  ∧ (∀ sc dc pr : Option String, ∃ a : WhaleAlert,
      a.alert_type = AlertType.bridge ∧ a.source_chain = sc ∧
      a.destination_chain = dc ∧ a.protocol = pr) := by
  refine ⟨rfl, ?_, by decide, ?_, ?_⟩
  · intro t
    cases t <;> decide
  · intro ss bs sa ba
    exact ⟨⟨"", "", "", .dex_trade, none, none, none, none, none, none, 0,
            none, none, none, bs, ss, ba, sa⟩, rfl, rfl, rfl, rfl, rfl⟩
  · intro sc dc pr
    exact ⟨⟨"", "", "", .bridge, none, none, none, none, none, none, 0,
            pr, sc, dc, none, none, none, none⟩, rfl, rfl, rfl, rfl⟩

/-- `shortenAddress` from `lib/api.ts`: "Unknown" for a null / empty address,
the address itself up to 12 characters, else first 6 ++ "..." ++ last 4
(JS `slice` embedded character-wise). -/
def shortenAddress : Option String → String
  | none => "Unknown"
  | some addr =>
      if addr = "" then "Unknown"
      else if addr.length ≤ 12 then addr
      else ⟨addr.data.take 6⟩ ++ "..." ++ (⟨addr.data.drop (addr.data.length - 4)⟩ : String)

/-- Left-pad a digit string with zeros to width `n`. -/
def padLeftZeros (s : String) (n : Nat) : String :=
  ⟨List.replicate (n - s.data.length) '0' ++ s.data⟩

/-- JavaScript `Number.prototype.toFixed(d)`, embedded over exact rationals:
round half away from zero to `d` decimal places. -/
def toFixed (q : Rat) (d : Nat) : String :=
  let sign := if q < 0 then "-" else ""
  let n : Nat := (|q| * (10 : Rat) ^ d + 1 / 2).floor.toNat
  let intPart := n / 10 ^ d
  let fracPart := n % 10 ^ d
  if d = 0 then sign ++ toString intPart
  else sign ++ toString intPart ++ "." ++ padLeftZeros (toString fracPart) d

/-- `formatAmount` from `lib/api.ts`: "?" for a null amount, otherwise the
value scaled with an M / K suffix. -/
def formatAmount : Option Rat → String
  | none => "?"
  | some amount =>
      if 1000000 ≤ amount then toFixed (amount / 1000000) 2 ++ "M"
      else if 1000 ≤ amount then toFixed (amount / 1000) 1 ++ "K"
      else toFixed amount 2

/-- `ALERT_EMOJI` from the frontend whale types: the iconographic tag shown
beside every alert entry. -/
def ALERT_EMOJI : AlertType → String
  | .transfer => "🐋"
  | .mint => "🌊"
  | .burn => "🔥"
  | .dex_trade => "💱"
  | .bridge => "🌉"

/-- The `description` computed by `AlertEntry` in `AlertFeed.tsx`:
kind-specific template, "?" for each absent symbol / amount / chain leg. -/
def renderDescription (a : WhaleAlert) : String :=
  match a.alert_type with
  | .dex_trade =>
      "Swapped " ++ (formatAmount a.amount_sold ++ (" " ++
        (a.asset_sold_symbol.getD "?" ++ (" → " ++
          (formatAmount a.amount_bought ++ (" " ++ a.asset_bought_symbol.getD "?"))))))
  | .bridge =>
      "Bridged " ++ (formatAmount a.amount ++ (" " ++
        (a.asset_symbol.getD "?" ++ (" " ++
          (a.source_chain.getD "?" ++ (" → " ++ a.destination_chain.getD "?"))))))
  | .mint => "Minted " ++ (formatAmount a.amount ++ (" " ++ a.asset_symbol.getD "?"))
  | .burn => "Burned " ++ (formatAmount a.amount ++ (" " ++ a.asset_symbol.getD "?"))
  | .transfer => "Transferred " ++ (formatAmount a.amount ++ (" " ++ a.asset_symbol.getD "?"))

/-- The `from` / `to` line of `AlertEntry`: the label when present and
non-empty (JS truthiness), otherwise the shortened address. -/
def displayEndpoint (label address : Option String) : String :=
  match label with
  | some l => if l = "" then shortenAddress address else l
  | none => shortenAddress address

/-- Two string appends differ whenever their prefixes differ within the first
two characters. -/
theorem string_append_ne_of_take2 (p q x y : String)
    (hp : 2 ≤ p.data.length) (hq : 2 ≤ q.data.length)
    (h : p.data.take 2 ≠ q.data.take 2) : p ++ x ≠ q ++ y := by
  intro he
  have hd : p.data ++ x.data = q.data ++ y.data := by
    have hc := congrArg String.data he
    simpa [String.data_append] using hc
  have ht := congrArg (List.take 2) hd
  rw [List.take_append_of_le_length hp, List.take_append_of_le_length hq] at ht
  exact h ht

/-- C8: the alert renderer is total and kind-aware — any two alerts that agree
on every field except the kind render distinct wording, the five iconographic
tags are pairwise distinct, and absent optional fields degrade to placeholders:
"?" for a missing amount or symbol, "Unknown" for a missing address, with the
label line falling back from a missing label to the (shortened) address. -/
theorem formatter_spec :
    (∀ a : WhaleAlert, ∀ k1 k2 : AlertType, k1 ≠ k2 →
      renderDescription { a with alert_type := k1 } ≠
        renderDescription { a with alert_type := k2 })
  ∧ (∀ k1 k2 : AlertType, k1 ≠ k2 → ALERT_EMOJI k1 ≠ ALERT_EMOJI k2)
  ∧ formatAmount none = "?"
  ∧ shortenAddress none = "Unknown"
  ∧ (∀ a : WhaleAlert, a.alert_type = AlertType.transfer → a.amount = none →
      a.asset_symbol = none → renderDescription a = "Transferred ? ?")
  ∧ displayEndpoint none none = "Unknown"
  ∧ (∀ ad : Option String, displayEndpoint none ad = shortenAddress ad) := by
  refine ⟨?_, ?_, rfl, rfl, ?_, rfl, fun ad => rfl⟩
  · intro a k1 k2 hne
    cases k1 <;> cases k2 <;>
      simp only [renderDescription] <;>
      first
        | exact absurd rfl hne
        | exact string_append_ne_of_take2 _ _ _ _ (by decide) (by decide) (by decide)
  · intro k1 k2 hne
    cases k1 <;> cases k2 <;> first | exact absurd rfl hne | decide
  · intro a hk hm hs
    obtain ⟨f1, f2, f3, f4, f5, f6, f7, f8, f9, f10, f11, f12, f13,
            f14, f15, f16, f17, f18⟩ := a
    simp only at hk hm hs
    subst hk hm hs
    rfl

/-- Witness for C8: a burn and a mint alert over the same fields render
distinct wording, the whale and bridge tags differ, and a transfer alert with
no amount, symbol, label or address renders with "?" and "Unknown". -/
theorem formatter_spec_witness :
    (renderDescription ⟨"0x1", "ethereum", "2024", .burn, none, none, none, none,
        none, none, 0, none, none, none, none, none, none, none⟩ ≠
     renderDescription ⟨"0x1", "ethereum", "2024", .mint, none, none, none, none,
        none, none, 0, none, none, none, none, none, none, none⟩)
  ∧ ALERT_EMOJI AlertType.transfer ≠ ALERT_EMOJI AlertType.bridge
  ∧ renderDescription ⟨"0x1", "ethereum", "2024", .transfer, none, none, none, none,
        none, none, 0, none, none, none, none, none, none, none⟩ = "Transferred ? ?" := by
  refine ⟨?_, ?_, ?_⟩
  · exact formatter_spec.1
      ⟨"0x1", "ethereum", "2024", .transfer, none, none, none, none,
        none, none, 0, none, none, none, none, none, none, none⟩
      AlertType.burn AlertType.mint (by decide)
  · exact formatter_spec.2.1 AlertType.transfer AlertType.bridge (by decide)
  · exact formatter_spec.2.2.2.2.1
      ⟨"0x1", "ethereum", "2024", .transfer, none, none, none, none,
        none, none, 0, none, none, none, none, none, none, none⟩ rfl rfl rfl

/-- The merge key built in `App.tsx`: tx_hash ++ ":" ++ alert_type. -/
def alertKey (w : WhaleAlert) : String :=
  w.tx_hash ++ ":" ++ w.alert_type.toStr

/-- The descending-timestamp order used by the `App.tsx` sort comparator
(`b.block_timestamp > a.block_timestamp ? 1 : -1`): `a` may precede `b`
exactly when `b`'s timestamp is at most `a`'s. -/
def tsDesc (a b : WhaleAlert) : Prop :=
  b.block_timestamp ≤ a.block_timestamp

instance : DecidableRel tsDesc := fun a b =>
  inferInstanceAs (Decidable (b.block_timestamp ≤ a.block_timestamp))

instance : IsTotal WhaleAlert tsDesc :=
  ⟨fun a b => (le_total b.block_timestamp a.block_timestamp).imp id id⟩

instance : IsTrans WhaleAlert tsDesc :=
  ⟨fun _ _ _ hab hbc => le_trans hbc hab⟩

/-- Sorting by block timestamp descending, as the `App.tsx` comparator does. -/
def sortByTimestampDesc (l : List WhaleAlert) : List WhaleAlert :=
  l.insertionSort tsDesc

/-- The `newAlerts` computed by the `App.tsx` history-merge effect: history
alerts whose tx_hash:alert_type key no already-held alert has. -/
def newHistoryAlerts (prev hist : List WhaleAlert) : List WhaleAlert :=
  hist.filter (fun w => !((prev.map alertKey).contains (alertKey w)))

/-- The `App.tsx` history merge (both the prefetch and the time-window
effect): keep `prev` when nothing is new, otherwise append the new alerts,
sort by timestamp descending, and cap at 2000. -/
def mergeHistory (prev hist : List WhaleAlert) : List WhaleAlert :=
  let newAlerts := newHistoryAlerts prev hist
  if newAlerts.isEmpty then prev
  else (sortByTimestampDesc (prev ++ newAlerts)).take 2000

/-- `onNewAlert` from `App.tsx`: prepend the live alert and truncate to 500. -/
def onNewAlert (prev : List WhaleAlert) (a : WhaleAlert) : List WhaleAlert :=
  (a :: prev).take 500

/-- C5: on a history merge, a history alert is added iff no already-held alert
shares its (tx_hash, alert_type) key; when nothing is new the list is kept
unchanged, and otherwise the merged list is sorted by block timestamp
descending. -/
theorem history_merge_spec :
    (∀ prev hist : List WhaleAlert, ∀ w : WhaleAlert,
      w ∈ newHistoryAlerts prev hist ↔ w ∈ hist ∧ ∀ p ∈ prev, alertKey p ≠ alertKey w)
  ∧ (∀ prev hist : List WhaleAlert, newHistoryAlerts prev hist = [] →
      mergeHistory prev hist = prev)
  ∧ (∀ prev hist : List WhaleAlert, newHistoryAlerts prev hist ≠ [] →
      List.Sorted tsDesc (mergeHistory prev hist)) := by
  refine ⟨?_, ?_, ?_⟩
  · intro prev hist w
    rw [newHistoryAlerts, List.mem_filter]
    apply and_congr_right
    intro _
    rw [Bool.not_eq_true']
    constructor
    · intro hfalse p hp heq
      have hm : alertKey w ∈ prev.map alertKey := List.mem_map.mpr ⟨p, hp, heq⟩
      have htrue : (prev.map alertKey).contains (alertKey w) = true := List.elem_iff.mpr hm
      rw [htrue] at hfalse
      cases hfalse
    · intro hall
      cases hcc : (prev.map alertKey).contains (alertKey w) with
      | false => rfl
      | true =>
        obtain ⟨p, hp, heq⟩ := List.mem_map.mp (List.elem_iff.mp hcc)
        exact absurd heq (hall p hp)
  · intro prev hist h
    simp [mergeHistory, h]
  · intro prev hist h
    have hne : (newHistoryAlerts prev hist).isEmpty = false := by
      cases hc : newHistoryAlerts prev hist with
      | nil => exact absurd hc h
      | cons x xs => rfl
    simp only [mergeHistory, hne, Bool.false_eq_true, if_false]
    exact List.Pairwise.sublist (List.take_sublist _ _)
      (List.sorted_insertionSort tsDesc (prev ++ newHistoryAlerts prev hist))

/-- A minimal alert used by concrete witnesses. -/
def mkSampleAlert (tx ts : String) (k : AlertType) : WhaleAlert :=
  ⟨tx, "ethereum", ts, k, none, none, none, none, none, none, 0,
   none, none, none, none, none, none, none⟩

/-- Witness for C5: a history alert with a fresh key is added to the merge
of a one-element live list, and the resulting merged list is sorted by
block timestamp descending. -/
theorem history_merge_spec_witness :
    mkSampleAlert "0x2" "2024-06-01" AlertType.transfer ∈
      newHistoryAlerts [mkSampleAlert "0x1" "2024-06-02" AlertType.transfer]
        [mkSampleAlert "0x2" "2024-06-01" AlertType.transfer]
  ∧ List.Sorted tsDesc
      (mergeHistory [mkSampleAlert "0x1" "2024-06-02" AlertType.transfer]
        [mkSampleAlert "0x2" "2024-06-01" AlertType.transfer]) := by
  constructor
  · exact (history_merge_spec.1 _ _ _).mpr ⟨by decide, by decide⟩
  · exact history_merge_spec.2.2 _ _ (by decide)

/-- A step of client-side list maintenance in `App.tsx`: either a live
WebSocket alert arrives or a history result is merged. -/
inductive FeedOp where
  | live (a : WhaleAlert)
  | mergeHist (hist : List WhaleAlert)

/-- Apply one feed operation to the held alert list, as `App.tsx` does. -/
def applyFeedOp (prev : List WhaleAlert) : FeedOp → List WhaleAlert
  | .live a => onNewAlert prev a
  | .mergeHist hist => mergeHistory prev hist

/-- Apply a sequence of feed operations. -/
def applyFeedOps (prev : List WhaleAlert) (ops : List FeedOp) : List WhaleAlert :=
  ops.foldl applyFeedOp prev

/-- C9: every live alert prepends and truncates to at most 500 entries, every
history merge caps at 2000 entries (never growing a list already within the
cap beyond it), so the list length never exceeds 2000 after any sequence of
live alerts and merges starting within the cap. -/
theorem feed_bound_spec :
    (∀ (prev : List WhaleAlert) (a : WhaleAlert), onNewAlert prev a = (a :: prev).take 500)
  ∧ (∀ (prev : List WhaleAlert) (a : WhaleAlert), (onNewAlert prev a).length ≤ 500)
  ∧ (∀ prev hist : List WhaleAlert, (mergeHistory prev hist).length ≤ max prev.length 2000)
  ∧ (∀ (prev : List WhaleAlert) (ops : List FeedOp), prev.length ≤ 2000 →
      (applyFeedOps prev ops).length ≤ 2000) := by
  have h500 : ∀ (prev : List WhaleAlert) (a : WhaleAlert),
      (onNewAlert prev a).length ≤ 500 := by
    intro prev a
    exact List.length_take_le 500 (a :: prev)
  have hmerge : ∀ prev hist : List WhaleAlert,
      (mergeHistory prev hist).length ≤ max prev.length 2000 := by
    intro prev hist
    rw [mergeHistory]
    cases he : (newHistoryAlerts prev hist).isEmpty
    · simp only [he, Bool.false_eq_true, if_false]
      exact le_max_of_le_right (List.length_take_le 2000 _)
    · simp only [he, if_true]
      exact le_max_left _ _
  refine ⟨fun _ _ => rfl, h500, hmerge, ?_⟩
  intro prev ops hprev
  induction ops generalizing prev with
  | nil => simpa [applyFeedOps] using hprev
  | cons op rest ih =>
    rw [applyFeedOps, List.foldl_cons]
    apply ih
    cases op with
    | live a => exact le_trans (h500 prev a) (by norm_num)
    | mergeHist hist => exact le_trans (hmerge prev hist) (max_le hprev le_rfl)

/-- Witness for C9: starting from the empty list, a live alert followed by a
history merge leaves at most 2000 entries. -/
theorem feed_bound_spec_witness :
    (applyFeedOps []
      [FeedOp.live (mkSampleAlert "0x1" "2024-06-02" AlertType.transfer),
       FeedOp.mergeHist [mkSampleAlert "0x2" "2024-06-01" AlertType.transfer]]).length
      ≤ 2000 :=
  feed_bound_spec.2.2.2 _ _ (by decide)

/-- Modelled from the spec: the backend threshold filter (`pipeline.py`) is not
in the source tree. Reference default threshold: $1,000,000. -/
def defaultThresholdUsd : Rat := 1000000

/-- Modelled from the spec: per-chain configurable USD floors; a chain with no
configured entry uses the reference default. -/
structure ThresholdConfig where
  perChain : String → Option Rat

/-- The effective threshold for a chain under a configuration. -/
def thresholdFor (cfg : ThresholdConfig) (chain : String) : Rat :=
  (cfg.perChain chain).getD defaultThresholdUsd

/-- Modelled from the spec: the Threshold Filter, a pure
`(candidate, chain) → bool`: forward iff the USD value reaches the chain's
threshold. -/
def passesThreshold (cfg : ThresholdConfig) (c : WhaleAlert) : Bool :=
  decide (thresholdFor cfg c.chain ≤ c.usd_value)

/-- C1: a candidate is forwarded past the Threshold Filter iff its USD value
is at least the per-chain threshold (reference default $1,000,000); the filter
is a pure function of the candidate's USD value and chain alone, and an
unconfigured chain falls back to the default. -/
theorem threshold_filter_spec :
    defaultThresholdUsd = 1000000
  ∧ (∀ (cfg : ThresholdConfig) (c : WhaleAlert),
      passesThreshold cfg c = true ↔ c.usd_value ≥ thresholdFor cfg c.chain)
  ∧ (∀ (cfg : ThresholdConfig) (c d : WhaleAlert), c.usd_value = d.usd_value →
      c.chain = d.chain → passesThreshold cfg c = passesThreshold cfg d)
  ∧ (∀ (cfg : ThresholdConfig) (chain : String), cfg.perChain chain = none →
      thresholdFor cfg chain = defaultThresholdUsd) := by
  refine ⟨rfl, ?_, ?_, ?_⟩
  · intro cfg c
    rw [passesThreshold, decide_eq_true_iff, ge_iff_le]
  · intro cfg c d hu hc
    rw [passesThreshold, passesThreshold, hu, hc]
  · intro cfg chain h
    rw [thresholdFor, h]
    rfl

/-- Witness for C1: under the default configuration, a $2M candidate passes
and the unconfigured chain's threshold is the $1M default. -/
theorem threshold_filter_spec_witness :
    passesThreshold ⟨fun _ => none⟩
      ⟨"0x1", "ethereum", "2024", .transfer, none, none, none, none,
       none, none, 2000000, none, none, none, none, none, none, none⟩ = true
  ∧ thresholdFor ⟨fun _ => none⟩ "ethereum" = defaultThresholdUsd := by
  constructor
  · exact (threshold_filter_spec.2.1 ⟨fun _ => none⟩
      ⟨"0x1", "ethereum", "2024", .transfer, none, none, none, none,
       none, none, 2000000, none, none, none, none, none, none, none⟩).mpr (by decide)
  · exact threshold_filter_spec.2.2.2 ⟨fun _ => none⟩ "ethereum" rfl

/-- Modelled from the spec: `dedup.py` is not in the source tree; the
retention window is 48 hours (in seconds here). -/
def retentionWindowSecs : Nat := 48 * 3600

/-- Modelled from the spec: the `InMemoryDedupStore` backend of `dedup.py`
(a dict from dedup key to the time it was marked, entries expiring after the
retention window). -/
structure InMemoryDedupStore where
  entries : List (String × Nat)
deriving DecidableEq, Repr

/-- Modelled from the spec: `check_and_mark(key, now)` reports whether `key`
was already marked within the retention window and, if not, (re)marks it at
`now`. Returns (already-seen?, updated store). -/
def check_and_mark (s : InMemoryDedupStore) (key : String) (now : Nat) :
    Bool × InMemoryDedupStore :=
  match s.entries.lookup key with
  | some t =>
      if now < t + retentionWindowSecs then (true, s)
      else (false, ⟨(key, now) :: s.entries.filter (fun e => !(e.1 == key))⟩)
  | none => (false, ⟨(key, now) :: s.entries.filter (fun e => !(e.1 == key))⟩)

/-- `check_and_mark` on an unmarked key reports it new and marks it. -/
theorem check_and_mark_fresh (s : InMemoryDedupStore) (key : String) (t : Nat)
    (h : s.entries.lookup key = none) :
    check_and_mark s key t =
      (false, ⟨(key, t) :: s.entries.filter (fun e => !(e.1 == key))⟩) := by
  rw [check_and_mark, h]

/-- `check_and_mark` on a key marked within the window reports it seen and
leaves the store unchanged. -/
theorem check_and_mark_seen (s : InMemoryDedupStore) (key : String) (t now : Nat)
    (h : s.entries.lookup key = some t) (hw : now < t + retentionWindowSecs) :
    check_and_mark s key now = (true, s) := by
  simp [check_and_mark, h, hw]

/-- `check_and_mark` on a key whose mark has expired reports it new again. -/
theorem check_and_mark_expired (s : InMemoryDedupStore) (key : String) (t now : Nat)
    (h : s.entries.lookup key = some t) (hw : ¬ now < t + retentionWindowSecs) :
    (check_and_mark s key now).1 = false := by
  simp [check_and_mark, h, hw]

/-- Looking up the key just pushed onto the store front finds its mark time. -/
theorem lookup_marked (key : String) (t : Nat) (rest : List (String × Nat)) :
    (InMemoryDedupStore.mk ((key, t) :: rest)).entries.lookup key = some t := by
  simp [List.lookup]

/-- Modelled from the spec: repeated submissions of one key, counting how many
are delivered (a submission is delivered when `check_and_mark` reports new). -/
def submitAll (s : InMemoryDedupStore) (key : String) (times : List Nat) :
    Nat × InMemoryDedupStore :=
  times.foldl
    (fun acc t =>
      let r := check_and_mark acc.2 key t
      (if r.1 then acc.1 else acc.1 + 1, r.2))
    (0, s)

/-- C2: submitting the same key twice within the retention window yields
exactly one delivery — the second `check_and_mark` reports already-seen and
leaves the store unchanged — and submitting again once the window has elapsed
is delivered a second time. -/
theorem dedup_idempotence_spec :
    ∀ (s : InMemoryDedupStore) (key : String) (t1 t2 t3 : Nat),
      s.entries.lookup key = none →
      t2 < t1 + retentionWindowSecs →
      t1 + retentionWindowSecs ≤ t3 →
      (check_and_mark s key t1).1 = false
      ∧ (check_and_mark (check_and_mark s key t1).2 key t2).1 = true
      ∧ (check_and_mark (check_and_mark s key t1).2 key t2).2 = (check_and_mark s key t1).2
      ∧ (check_and_mark (check_and_mark s key t1).2 key t3).1 = false
      ∧ (submitAll s key [t1, t2]).1 = 1
      ∧ (submitAll s key [t1, t2, t3]).1 = 2 := by
  intro s key t1 t2 t3 hnone h2 h3
  have h1 := check_and_mark_fresh s key t1 hnone
  have hl := lookup_marked key t1 (s.entries.filter (fun e => !(e.1 == key)))
  have hseen := check_and_mark_seen _ key t1 t2 hl h2
  have hexp := check_and_mark_expired _ key t1 t3 hl (by omega)
  refine ⟨?_, ?_, ?_, ?_, ?_, ?_⟩
  · rw [h1]
  · rw [h1]
    dsimp only
    rw [hseen]
  · rw [h1]
    dsimp only
    rw [hseen]
  · rw [h1]
    dsimp only
    exact hexp
  · simp [submitAll, h1, hseen]
  · simp [submitAll, h1, hseen, hexp]

/-- Witness for C2: on an empty store, key "k" submitted at 0 is delivered,
at 1 (within 48h) suppressed, and at 172800 (48h later) delivered again. -/
theorem dedup_idempotence_spec_witness :
    (check_and_mark ⟨[]⟩ "k" 0).1 = false
  ∧ (check_and_mark (check_and_mark ⟨[]⟩ "k" 0).2 "k" 1).1 = true
  ∧ (check_and_mark (check_and_mark ⟨[]⟩ "k" 0).2 "k" 172800).1 = false
  ∧ (submitAll ⟨[]⟩ "k" [0, 1]).1 = 1 := by
  have h := dedup_idempotence_spec ⟨[]⟩ "k" 0 1 172800 rfl (by decide) (by decide)
  exact ⟨h.1, h.2.1, h.2.2.2.1, h.2.2.2.2.1⟩

/-- Modelled from the spec: `dedup.py` is not in the source tree; the
repository overview documents the dedup key format tx_hash:type:symbol, the
symbol falling back to a placeholder when unknown. -/
def dedupKey (a : WhaleAlert) : String :=
  a.tx_hash ++ ":" ++ a.alert_type.toStr ++ ":" ++ a.asset_symbol.getD "?"

/-- C3: the dedup key is the composite (transaction identifier, alert kind,
asset symbol-or-placeholder); any two detections of the same underlying event
— agreeing on those three fields, whatever watched address triggered them —
derive the same key, so a transfer between two watched addresses fires at
most once per window. -/
theorem dedup_key_spec :
    (∀ a : WhaleAlert, dedupKey a =
      a.tx_hash ++ ":" ++ a.alert_type.toStr ++ ":" ++ a.asset_symbol.getD "?")
  ∧ (∀ a b : WhaleAlert, a.tx_hash = b.tx_hash → a.alert_type = b.alert_type →
      a.asset_symbol = b.asset_symbol → dedupKey a = dedupKey b)
  ∧ (∀ (a b : WhaleAlert) (s : InMemoryDedupStore) (t1 t2 : Nat),
      a.tx_hash = b.tx_hash → a.alert_type = b.alert_type →
      a.asset_symbol = b.asset_symbol →
      s.entries.lookup (dedupKey a) = none → t2 < t1 + retentionWindowSecs →
      (check_and_mark s (dedupKey a) t1).1 = false ∧
      (check_and_mark (check_and_mark s (dedupKey a) t1).2 (dedupKey b) t2).1 = true) := by
  have hsame : ∀ a b : WhaleAlert, a.tx_hash = b.tx_hash → a.alert_type = b.alert_type →
      a.asset_symbol = b.asset_symbol → dedupKey a = dedupKey b := by
    intro a b h1 h2 h3
    rw [dedupKey, dedupKey, h1, h2, h3]
  refine ⟨fun a => rfl, hsame, ?_⟩
  intro a b s t1 t2 h1 h2 h3 hnone hw
  rw [← hsame a b h1 h2 h3]
  have hf := check_and_mark_fresh s (dedupKey a) t1 hnone
  rw [hf]
  dsimp only
  refine ⟨rfl, ?_⟩
  rw [check_and_mark_seen _ (dedupKey a) t1 t2 (lookup_marked _ _ _) hw]

/-- Witness for C3: two detections of one transfer differing only in which
endpoint address triggered them derive the same key, and the second is
suppressed within the window. -/
theorem dedup_key_spec_witness :
    dedupKey ⟨"0x9", "ethereum", "2024", .transfer, some "0xaaa", some "0xbbb",
      none, none, some "ETH", none, 0, none, none, none, none, none, none, none⟩ =
    dedupKey ⟨"0x9", "ethereum", "2024", .transfer, some "0xbbb", some "0xaaa",
      none, none, some "ETH", none, 0, none, none, none, none, none, none, none⟩
  ∧ (check_and_mark
      (check_and_mark ⟨[]⟩
        (dedupKey ⟨"0x9", "ethereum", "2024", .transfer, some "0xaaa", some "0xbbb",
          none, none, some "ETH", none, 0, none, none, none, none, none, none, none⟩) 0).2
      (dedupKey ⟨"0x9", "ethereum", "2024", .transfer, some "0xbbb", some "0xaaa",
        none, none, some "ETH", none, 0, none, none, none, none, none, none, none⟩) 5).1
    = true := by
  constructor
  · exact dedup_key_spec.2.1 _ _ rfl rfl rfl
  · exact (dedup_key_spec.2.2 _ _ ⟨[]⟩ 0 5 rfl rfl rfl rfl (by decide)).2

/-- Modelled from the spec: the History Buffer's reference capacity
(`alert_buffer`, a deque with maxlen 1000). -/
def bufferCapacity : Nat := 1000

/-- Modelled from the spec: appending to the fixed-capacity History Buffer
(`pipeline.py` is not in the source tree): a deque append that evicts the
oldest entry when the buffer is full. Oldest first. -/
def bufferAppend (cap : Nat) (buf : List WhaleAlert) (a : WhaleAlert) :
    List WhaleAlert :=
  if buf.length < cap then buf ++ [a] else buf.drop 1 ++ [a]

/-- Appending a whole sequence of accepted alerts to an initially empty
buffer. -/
def bufferAppendAll (cap : Nat) (xs : List WhaleAlert) : List WhaleAlert :=
  xs.foldl (bufferAppend cap) []

/-- Modelled from the spec: `recent(limit)` — the most recent accepted alerts,
most-recent-first. -/
def recent (buf : List WhaleAlert) (limit : Nat) : List WhaleAlert :=
  buf.reverse.take limit

/-- Modelled from the spec: `by_tx_id(id)` — all buffered alerts sharing a
transaction identifier. -/
def by_tx_id (buf : List WhaleAlert) (id : String) : List WhaleAlert :=
  buf.filter (fun a => a.tx_hash == id)

/-- After appending a sequence to an empty capacity-`cap` buffer, the buffer
holds exactly the last `cap` appended alerts (all of them when fewer). -/
theorem bufferAppendAll_eq_drop (cap : Nat) (hcap : 0 < cap) :
    ∀ xs : List WhaleAlert, bufferAppendAll cap xs = xs.drop (xs.length - cap) := by
  intro xs
  induction xs using List.reverseRecOn with
  | nil => simp [bufferAppendAll]
  | append_singleton xs a ih =>
    have hL : (xs ++ [a]).length = xs.length + 1 := by
      simp
    rw [bufferAppendAll, List.foldl_concat, ← bufferAppendAll, ih, bufferAppend]
    by_cases hlt : xs.length < cap
    · have h0 : xs.length - cap = 0 := by omega
      have h0' : (xs ++ [a]).length - cap = 0 := by omega
      rw [h0, h0', List.drop_zero, List.drop_zero, if_pos hlt]
    · have hlen : (xs.drop (xs.length - cap)).length = cap := by
        rw [List.length_drop]
        omega
      have hnlt : ¬ (xs.drop (xs.length - cap)).length < cap := by
        rw [hlen]
        omega
      rw [if_neg hnlt, List.drop_drop]
      have he1 : xs.length - cap + 1 = (xs ++ [a]).length - cap := by omega
      rw [he1, List.drop_append_of_le_length (by omega)]

/-- C4: the History Buffer has fixed capacity (reference 1000) and always
holds the most recent accepted alerts — appending past capacity evicts the
oldest, and after more than `cap` appends `recent(cap)` returns exactly the
last `cap` alerts in reverse-insertion order; any alert still queryable by
transaction id lies among the last `cap` appended (so an older one is gone
unless it was re-appended). -/
theorem history_buffer_spec :
    bufferCapacity = 1000
  ∧ (∀ (cap : Nat) (xs : List WhaleAlert), 0 < cap →
      bufferAppendAll cap xs = xs.drop (xs.length - cap))
  ∧ (∀ (cap : Nat) (xs : List WhaleAlert), 0 < cap → cap < xs.length →
      recent (bufferAppendAll cap xs) cap = (xs.drop (xs.length - cap)).reverse
      ∧ (bufferAppendAll cap xs).length = cap)
  ∧ (∀ (cap : Nat) (xs : List WhaleAlert) (id : String) (a : WhaleAlert), 0 < cap →
      a ∈ by_tx_id (bufferAppendAll cap xs) id →
      a ∈ xs.drop (xs.length - cap) ∧ a.tx_hash = id) := by
  refine ⟨rfl, fun cap xs h => bufferAppendAll_eq_drop cap h xs, ?_, ?_⟩
  · intro cap xs hcap hlt
    have hd := bufferAppendAll_eq_drop cap hcap xs
    have hlen : (bufferAppendAll cap xs).length = cap := by
      rw [hd, List.length_drop]
      omega
    refine ⟨?_, hlen⟩
    rw [recent, List.take_of_length_le (by rw [List.length_reverse, hlen]), hd]
  · intro cap xs id a hcap hmem
    rw [by_tx_id] at hmem
    have hm := List.mem_filter.mp hmem
    refine ⟨?_, eq_of_beq hm.2⟩
    rw [← bufferAppendAll_eq_drop cap hcap xs]
    exact hm.1

/-- Witness for C4: with capacity 2 and three appended alerts, the first is
evicted and `recent 2` lists the last two most-recent-first. -/
theorem history_buffer_spec_witness :
    recent (bufferAppendAll 2
      [mkSampleAlert "0xa" "1" AlertType.transfer,
       mkSampleAlert "0xb" "2" AlertType.transfer,
       mkSampleAlert "0xc" "3" AlertType.transfer]) 2 =
      [mkSampleAlert "0xc" "3" AlertType.transfer,
       mkSampleAlert "0xb" "2" AlertType.transfer]
  ∧ (bufferAppendAll 2
      [mkSampleAlert "0xa" "1" AlertType.transfer,
       mkSampleAlert "0xb" "2" AlertType.transfer,
       mkSampleAlert "0xc" "3" AlertType.transfer]).length = 2 := by
  have h := history_buffer_spec.2.2.1 2
    [mkSampleAlert "0xa" "1" AlertType.transfer,
     mkSampleAlert "0xb" "2" AlertType.transfer,
     mkSampleAlert "0xc" "3" AlertType.transfer] (by decide) (by decide)
  refine ⟨?_, h.2⟩
  rw [h.1]
  rfl

/-- The WebSocket ready states the hook consults (`WebSocket.OPEN` etc.). -/
inductive WsReadyState where
  | CONNECTING
  | OPEN
  | CLOSING
  | CLOSED
deriving DecidableEq, Repr

/-- The keepalive interval from `useWhaleUpdates` (`setInterval(..., 25_000)`). -/
def pingIntervalMs : Nat := 25000

/-- The reconnect delay from `useWhaleUpdates` (`setTimeout(connect, 3000)`). -/
def reconnectDelayMs : Nat := 3000

/-- Abstract state of the `useWhaleUpdates` hook: how many times `connect` has
run, the socket's ready state, whether the ping interval is live, whether a
reconnect timeout is pending, and the `connected` React state. -/
structure HookState where
  connAttempts : Nat
  readyState : WsReadyState
  intervalActive : Bool
  reconnectPending : Bool
  connected : Bool
deriving DecidableEq, Repr

/-- The events the hook's handlers react to. -/
inductive HookEvent where
  | wsOpen
  | intervalTick
  | wsClose
  | reconnectFire

/-- One handler step of `useWhaleUpdates`, returning the next state and any
message sent: `onopen` sets connected and starts the 25s interval; a tick
sends "ping" while the socket is OPEN and otherwise clears the interval; the
close handlers clear the interval, unset connected and schedule a reconnect;
the reconnect timeout runs `connect` again. -/
def hookStep (st : HookState) : HookEvent → HookState × Option String
  | .wsOpen =>
      ({ st with connected := true, intervalActive := true,
                 readyState := .OPEN }, none)
  | .intervalTick =>
      if st.intervalActive then
        if st.readyState = .OPEN then (st, some "ping")
        else ({ st with intervalActive := false }, none)
      else (st, none)
  | .wsClose =>
      ({ st with connected := false, intervalActive := false,
                 readyState := .CLOSED, reconnectPending := true }, none)
  | .reconnectFire =>
      if st.reconnectPending then
        ({ st with reconnectPending := false, connAttempts := st.connAttempts + 1,
                   readyState := .CONNECTING }, none)
      else (st, none)

/-- Run the hook over a sequence of events, keeping only the state. -/
def runSteps (st : HookState) (evs : List HookEvent) : HookState :=
  evs.foldl (fun s e => (hookStep s e).1) st

/-- Run the hook over a sequence of events, collecting the messages sent. -/
def pingsDuring (st : HookState) (evs : List HookEvent) : List String :=
  match evs with
  | [] => []
  | e :: rest =>
      match hookStep st e with
      | (st2, some m) => m :: pingsDuring st2 rest
      | (st2, none) => pingsDuring st2 rest

/-- One close/reconnect cycle of the live connection. -/
def closeReconnectCycle : List HookEvent := [HookEvent.wsClose, HookEvent.reconnectFire]

/-- The events of `n` successive close/reconnect cycles. -/
def cyclesEvents (n : Nat) : List HookEvent :=
  (List.replicate n closeReconnectCycle).flatten

/-- A close/reconnect cycle always lands in a reconnecting state with one more
connection attempt. -/
theorem runSteps_cycle (st : HookState) :
    runSteps st closeReconnectCycle =
      ⟨st.connAttempts + 1, .CONNECTING, false, false, false⟩ := by
  rfl

/-- C6: while the connection is open the client sends "ping" on the 25-second
interval — one ping per tick, the interval staying live — and a tick once the
socket is no longer open sends nothing and stops the interval; a close
unsets `connected`, clears the interval and schedules the 3-second reconnect,
and any number of close/reconnect cycles each run `connect` again. -/
theorem keepalive_spec :
    pingIntervalMs = 25000
  ∧ reconnectDelayMs = 3000
  ∧ (∀ st : HookState, st.intervalActive = true → st.readyState = WsReadyState.OPEN →
      hookStep st HookEvent.intervalTick = (st, some "ping"))
  ∧ (∀ st : HookState, st.readyState ≠ WsReadyState.OPEN →
      (hookStep st HookEvent.intervalTick).2 = none
      ∧ (hookStep st HookEvent.intervalTick).1.intervalActive = false)
  ∧ (∀ (st : HookState) (n : Nat), st.intervalActive = true →
      st.readyState = WsReadyState.OPEN →
      pingsDuring st (List.replicate n HookEvent.intervalTick) = List.replicate n "ping")
  ∧ (∀ st : HookState,
      (hookStep st HookEvent.wsClose).1.connected = false
      ∧ (hookStep st HookEvent.wsClose).1.intervalActive = false
      ∧ (hookStep st HookEvent.wsClose).1.reconnectPending = true)
  ∧ (∀ st : HookState, st.reconnectPending = true →
      (hookStep st HookEvent.reconnectFire).1.connAttempts = st.connAttempts + 1)
  ∧ (∀ (st : HookState) (n : Nat),
      (runSteps st (cyclesEvents n)).connAttempts = st.connAttempts + n) := by
  refine ⟨rfl, rfl, ?_, ?_, ?_, ?_, ?_, ?_⟩
  · intro st hact hopen
    simp [hookStep, hact, hopen]
  · intro st hnot
    cases hact : st.intervalActive <;> simp [hookStep, hact, hnot]
  · intro st n hact hopen
    induction n with
    | zero => rfl
    | succ k ih =>
      rw [List.replicate_succ, pingsDuring]
      simp only [hookStep, hact, if_true, hopen]
      rw [List.replicate_succ]
      exact congrArg (List.cons "ping") ih
  · intro st
    simp [hookStep]
  · intro st hp
    simp [hookStep, hp]
  · intro st n
    induction n generalizing st with
    | zero => rfl
    | succ k ih =>
      have hsplit : cyclesEvents (k + 1) = closeReconnectCycle ++ cyclesEvents k := by
        rw [cyclesEvents, List.replicate_succ, List.flatten_cons]
        rfl
      rw [hsplit, runSteps, List.foldl_append, ← runSteps, ← runSteps, runSteps_cycle, ih]
      show st.connAttempts + 1 + k = st.connAttempts + (k + 1)
      omega

/-- Witness for C6: from a freshly opened connection, three interval ticks
send three pings, a tick after close sends nothing and stops the interval,
and two close/reconnect cycles make two further connection attempts. -/
theorem keepalive_spec_witness :
    pingsDuring ⟨1, .OPEN, true, false, true⟩
      (List.replicate 3 HookEvent.intervalTick) = ["ping", "ping", "ping"]
  ∧ (hookStep ⟨1, .CLOSED, true, false, false⟩ HookEvent.intervalTick).2 = none
  ∧ (runSteps ⟨1, .OPEN, true, false, true⟩ (cyclesEvents 2)).connAttempts = 3 := by
  refine ⟨?_, ?_, ?_⟩
  · exact keepalive_spec.2.2.2.2.1 ⟨1, .OPEN, true, false, true⟩ 3 rfl rfl
  · exact (keepalive_spec.2.2.2.1 ⟨1, .CLOSED, true, false, false⟩ (by decide)).1
  · exact keepalive_spec.2.2.2.2.2.2.2 ⟨1, .OPEN, true, false, true⟩ 2
